import Mathlib

/-!
Verification of the paint-recommendation platform (tintas-ai-loomi).

This file gives a shallow embedding, in Lean 4, of the parts of the
repository that the specification talks about:

* `api/app/services/rag_service.py` — similarity retrieval,
* `ai-orchestrator/app/services/rag_service.py` — the orchestrator wrapper,
* `api/app/application/services.py` — user / paint services and CSV import,
* `api/app/infrastructure/repositories.py` — soft-delete repositories,
* `api/app/infrastructure/models.py` — the partial unique indexes,
* `ai-orchestrator/app/services/context_service.py` — the context cache,
* `ai-orchestrator/app/agents/paint_agent_simple.py` — the chat agent.

Modelling conventions: machine floats are modelled as rationals (scores,
vector components) or as real numbers where a square root is taken;
timestamps (`datetime.utcnow()`) are modelled as natural numbers counting
seconds; Python dictionaries that preserve insertion order are modelled as
association lists; calls to external services (OpenAI, the backend API,
the password hasher, validators with regular expressions) are passed in as
explicit function or `Except` parameters, so every control-flow branch of
the Python source is represented.
-/

namespace Tintas

/-! ### api/app/services/rag_service.py -/

/-- A paint row as seen by `search_similar_paints`: the query
`db.query(PaintModel).filter(PaintModel.embedding.isnot(None))` returns rows
whose `embedding` column is non-null, so the embedding is a plain list here.
Only the fields used by the search result formatting are kept. -/
structure PaintRec where
  id : Nat
  name : String
  color : String
  environment : String
  embedding : List ℚ
  deriving DecidableEq, Repr

/-- One formatted entry of the list returned by `search_similar_paints`. -/
structure SearchResult where
  id : Nat
  name : String
  color : String
  environment : String
  similarity_score : ℚ
  deriving DecidableEq, Repr

/-- Formatting step of `search_similar_paints` (lines 176–190 of
`rag_service.py`): each kept pair of paint and similarity becomes a result
record carrying the paint fields plus the score. -/
def formatResult (x : PaintRec × ℚ) : SearchResult :=
  { id := x.1.id, name := x.1.name, color := x.1.color,
    environment := x.1.environment, similarity_score := x.2 }

/-- RAGService.search_similar_paints, lines 117–197 of
`api/app/services/rag_service.py`.

`sim` stands for `self._calculate_similarity` (studied separately below),
`queryEmbedding` is the result of `self._generate_embedding`: `none` when
that call (or anything else inside the outer `try`) raised, in which case
the `except` branch at line 195 returns `[]`.  `paints` is the list of
candidate rows (already environment-filtered by the SQL query).  Rows whose
embedding length differs from the query dimension are skipped (line 156),
scores below `threshold` are dropped (line 162), the survivors are sorted
by descending similarity with Python's stable sort (line 173) and the first
`limit` of them are formatted (line 177). -/
def search_similar_paints (sim : List ℚ → List ℚ → ℚ) (queryEmbedding : Option (List ℚ))
    (paints : List PaintRec) (limit : Nat) (threshold : ℚ) : List SearchResult :=
  match queryEmbedding with
  | none => []
  | some q =>
    if paints.isEmpty then []
    else
      let similarities := paints.filterMap (fun p =>
        if p.embedding.length = q.length then
          let s := sim q p.embedding
          if threshold ≤ s then some (p, s) else none
        else none)
      let sorted := similarities.mergeSort (fun a b => decide (b.2 ≤ a.2))
      (sorted.take limit).map formatResult

/-- The `np.dot` of the two vectors in `_calculate_similarity`
(line 74 of `rag_service.py`). -/
def dotProduct (q p : List ℚ) : ℚ := (List.zipWith (· * ·) q p).sum

/-- The square of `np.linalg.norm v` (lines 75–76): the sum of the squared
components, kept in ℚ so that it is exactly computable. -/
def normSq (v : List ℚ) : ℚ := dotProduct v v

/-- The value of `np.linalg.norm` itself, a real number. -/
noncomputable def npNorm (v : List ℚ) : ℝ := Real.sqrt ((normSq v : ℚ) : ℝ)

open scoped Classical in
/-- RAGService._calculate_similarity, lines 66–85: if either norm is zero the
function returns `0.0` (line 78), otherwise the dot product divided by the
product of the norms (line 81). -/
noncomputable def calculate_similarity (q p : List ℚ) : ℝ :=
  if npNorm q = 0 ∨ npNorm p = 0 then 0
  else ((dotProduct q p : ℚ) : ℝ) / (npNorm q * npNorm p)

/-! ### ai-orchestrator/app/services/rag_service.py -/

/-- Python truthiness of an `Optional[str]` argument: `None` and the empty
string are falsy. -/
def truthy : Option String → Bool
  | some s => s ≠ ""
  | none => false

/-- The `env_mapping.get(environment, environment)` lookup in
`_filter_results_by_environment` (lines 70–76 of the orchestrator's
`rag_service.py`). -/
def env_mapping (environment : String) : String :=
  if environment = "internal" then "interno"
  else if environment = "external" then "externo"
  else if environment = "interno" then "interno"
  else if environment = "externo" then "externo"
  else environment

/-- Python's substring containment `pat in s`. -/
def strContains (s pat : String) : Bool :=
  (s.toList.tails).any (fun t => pat.toList.isPrefixOf t)

/-- RAGService._filter_results_by_environment, lines 61–91 of the
orchestrator's `rag_service.py`: when an environment is given (truthy) and
the result list is non-empty, keep the paints whose environment matches the
mapped target or mentions both environments. -/
def filter_results_by_environment (results : List SearchResult)
    (environment : Option String) : List SearchResult :=
  if truthy environment && !results.isEmpty then
    let target := env_mapping (environment.getD "")
    results.filter (fun paint =>
      paint.environment = target
        || strContains paint.environment "interno/externo"
        || strContains paint.environment "externo/interno")
  else results

/-- RAGService.search_with_retrieval, lines 38–59 of the orchestrator's
`rag_service.py`: the backend call `api_client.search_similar_paints` either
raises (`Except.error`) — in which case the handler at line 54 returns
`[]` — or returns a result list which is then environment-filtered. -/
def search_with_retrieval (apiResult : Except String (List SearchResult))
    (environment : Option String) : List SearchResult :=
  match apiResult with
  | .error _ => []
  | .ok results => filter_results_by_environment results environment

/-! ### api/app/infrastructure/models.py and repositories.py — users -/

/-- A row of the `users` table (`UserModel` in `models.py`): identifier,
the columns written by the repository, and the soft-delete timestamp. -/
structure UserRow where
  id : Nat
  email : String
  username : String
  full_name : String
  hashed_password : String
  role : String
  status : String
  last_login : Option Nat
  deleted_at : Option Nat
  deriving DecidableEq, Repr

/-- Input of `UserService.create_user` (`UserCreate` in `entities.py`). -/
structure UserCreate where
  email : String
  username : String
  full_name : String
  password : String
  role : String
  status : String
  deriving DecidableEq, Repr

/-- Input of `UserService.update_user` (`UserUpdate` in `entities.py`);
pydantic's `exclude_unset` makes every field optional, `none` meaning the
field was not part of the PATCH body. -/
structure UserUpdate where
  email : Option String := none
  username : Option String := none
  full_name : Option String := none
  role : Option String := none
  status : Option String := none
  password : Option String := none
  deriving DecidableEq, Repr

/-- The predicate of `_get_active_user_query` / `_get_active_paint_query`:
`deleted_at IS NULL`. -/
def isActive (deleted_at : Option Nat) : Bool := deleted_at = none

/-- UserRepository.get_by_id: first active row with the given id. -/
def user_get_by_id (store : List UserRow) (uid : Nat) : Option UserRow :=
  store.find? (fun r => isActive r.deleted_at && r.id = uid)

/-- UserRepository.exists_active_by_email, lines 138–141. -/
def exists_active_by_email (store : List UserRow) (email : String) : Bool :=
  (store.find? (fun r => isActive r.deleted_at && r.email = email)).isSome

/-- UserRepository.exists_active_by_username, lines 143–146. -/
def exists_active_by_username (store : List UserRow) (username : String) : Bool :=
  (store.find? (fun r => isActive r.deleted_at && r.username = username)).isSome

/-- The partial unique indexes `ix_users_email_active` and
`ix_users_username_active` of `models.py` (lines 44–49): among rows with
`deleted_at IS NULL`, emails are distinct and usernames are distinct. -/
def usersUnique (store : List UserRow) : Prop :=
  store.Pairwise (fun a b =>
    a.deleted_at = none → b.deleted_at = none → a.email ≠ b.email ∧ a.username ≠ b.username)

instance (store : List UserRow) : Decidable (usersUnique store) := by
  unfold usersUnique; infer_instance

/-- A commit against the `users` table: PostgreSQL accepts the new state
only when the partial unique indexes still hold, otherwise the transaction
fails (the repository raises and the persistent state is unchanged). -/
def commitUsers (store : List UserRow) : Except String (List UserRow) :=
  if usersUnique store then .ok store else .error "IntegrityError"

/-- UserRepository.create, lines 22–44: build the row (fresh primary key
`newId`, `deleted_at` null) and commit. -/
def user_repo_create (store : List UserRow) (u : UserCreate) (hashed_password : String)
    (newId : Nat) : Except String (List UserRow) :=
  commitUsers (store ++
    [{ id := newId, email := u.email, username := u.username, full_name := u.full_name,
       hashed_password := hashed_password, role := u.role, status := u.status,
       last_login := none, deleted_at := none }])

/-- The field assignment loop of UserRepository.update (lines 106–110):
every set field overwrites the column, `password` landing in
`hashed_password`. -/
def applyUserUpdate (r : UserRow) (u : UserUpdate) : UserRow :=
  { r with
    email := u.email.getD r.email,
    username := u.username.getD r.username,
    full_name := u.full_name.getD r.full_name,
    role := u.role.getD r.role,
    status := u.status.getD r.status,
    hashed_password := u.password.getD r.hashed_password }

/-- The row replacement done by UserRepository.update: the first active row
with the given id is overwritten in place; `none` when no such row exists
(the repository then returns `None` without touching the table). -/
def updateFirstActiveUser : List UserRow → Nat → UserUpdate → Option (UserRow × List UserRow)
  | [], _, _ => none
  | r :: rest, uid, u =>
    if isActive r.deleted_at && r.id = uid then
      some (applyUserUpdate r u, applyUserUpdate r u :: rest)
    else
      (updateFirstActiveUser rest uid u).map (fun x => (x.1, r :: x.2))

/-- UserRepository.update, lines 100–114: locate, assign, commit. -/
def user_repo_update (store : List UserRow) (uid : Nat) (u : UserUpdate) :
    Except String (Option UserRow × List UserRow) :=
  match updateFirstActiveUser store uid u with
  | none => .ok (none, store)
  | some (row, store1) => (commitUsers store1).map (fun s => (some row, s))

/-- UserRepository.delete, lines 116–125: the first active row with the id
gets `deleted_at = datetime.utcnow()`; `False` and no change otherwise. -/
def user_repo_delete : List UserRow → Nat → Nat → Bool × List UserRow
  | [], _, _ => (false, [])
  | r :: rest, uid, now =>
    if isActive r.deleted_at && r.id = uid then
      (true, { r with deleted_at := some now } :: rest)
    else
      let res := user_repo_delete rest uid now
      (res.1, r :: res.2)

/-- UserService.create_user, lines 105–127 of `application/services.py`.
`validate` stands for `UserValidator.validate_create_data` (a pure check
that raises on bad input) and `hash` for `AuthService.hash_password`. -/
def create_user (validate : UserCreate → Bool) (hash : String → String)
    (store : List UserRow) (u : UserCreate) (newId : Nat) : Except String (List UserRow) :=
  if !validate u then .error "validation failed"
  else if exists_active_by_email store u.email then
    .error "User with this email already exists"
  else if exists_active_by_username store u.username then
    .error "User with this username already exists"
  else user_repo_create store u (hash u.password) newId

/-- UserService.update_user, lines 155–182: after validation, a set and
non-blank password is hashed before the repository update; no duplicate
check happens at this layer. -/
def update_user (validate : UserUpdate → Bool) (hash : String → String)
    (store : List UserRow) (uid : Nat) (u : UserUpdate) :
    Except String (Option UserRow × List UserRow) :=
  if !validate u then .error "validation failed"
  else
    match u.password with
    | some pw =>
      if pw ≠ "" && pw.trim ≠ "" then
        user_repo_update store uid { u with password := some (hash pw) }
      else user_repo_update store uid u
    | none => user_repo_update store uid u

/-! ### api/app/infrastructure — paints -/

/-- A row of the `paints` table (`PaintModel` in `models.py`). -/
structure PaintRow where
  id : Nat
  name : String
  color : String
  surface_types : List String
  environment : String
  finish_type : String
  features : List String
  line : String
  description : Option String
  embedding : Option (List ℚ)
  deleted_at : Option Nat
  deriving DecidableEq, Repr

/-- Input of `PaintService.create_paint` (`PaintCreate` in `entities.py`). -/
structure PaintCreate where
  name : String
  color : String
  surface_types : List String
  environment : String
  finish_type : String
  features : List String
  line : String
  description : Option String := none
  deriving DecidableEq, Repr

/-- Input of `PaintService.update_paint` (`PaintUpdate` in `entities.py`). -/
structure PaintUpdate where
  name : Option String := none
  color : Option String := none
  surface_types : Option (List String) := none
  environment : Option String := none
  finish_type : Option String := none
  features : Option (List String) := none
  line : Option String := none
  description : Option String := none
  deriving DecidableEq, Repr

/-- PaintRepository.get_by_id, lines 215–218. -/
def paint_get_by_id (store : List PaintRow) (pid : Nat) : Option PaintRow :=
  store.find? (fun r => isActive r.deleted_at && r.id = pid)

/-- PaintRepository.get_by_name, lines 220–223. -/
def paint_get_by_name (store : List PaintRow) (name : String) : Option PaintRow :=
  store.find? (fun r => isActive r.deleted_at && r.name = name)

/-- PaintRepository.get_all, lines 225–231: active rows, then the filters of
`_apply_filters` (abstracted as the predicate `flt`), then pagination. -/
def paint_get_all (store : List PaintRow) (flt : PaintRow → Bool)
    (skip limit : Nat) : List PaintRow :=
  ((((store.filter (fun r => isActive r.deleted_at)).filter flt).drop skip).take limit)

/-- PaintRepository.exists_active_by_name, lines 320–323. -/
def exists_active_by_name (store : List PaintRow) (name : String) : Bool :=
  (store.find? (fun r => isActive r.deleted_at && r.name = name)).isSome

/-- The partial unique index `ix_paints_name_active` of `models.py`
(lines 70–72): active paints have pairwise distinct names. -/
def paintsUnique (store : List PaintRow) : Prop :=
  store.Pairwise (fun a b => a.deleted_at = none → b.deleted_at = none → a.name ≠ b.name)

instance (store : List PaintRow) : Decidable (paintsUnique store) := by
  unfold paintsUnique; infer_instance

/-- A commit against the `paints` table, guarded by the partial unique
index exactly as `commitUsers` is. -/
def commitPaints (store : List PaintRow) : Except String (List PaintRow) :=
  if paintsUnique store then .ok store else .error "IntegrityError"

/-- PaintRepository.create, lines 185–209. -/
def paint_repo_create (store : List PaintRow) (p : PaintCreate) (newId : Nat) :
    Except String (List PaintRow) :=
  commitPaints (store ++
    [{ id := newId, name := p.name, color := p.color, surface_types := p.surface_types,
       environment := p.environment, finish_type := p.finish_type, features := p.features,
       line := p.line, description := p.description, embedding := none, deleted_at := none }])

/-- The field assignment loop of PaintRepository.update (lines 295–298). -/
def applyPaintUpdate (r : PaintRow) (u : PaintUpdate) : PaintRow :=
  { r with
    name := u.name.getD r.name,
    color := u.color.getD r.color,
    surface_types := u.surface_types.getD r.surface_types,
    environment := u.environment.getD r.environment,
    finish_type := u.finish_type.getD r.finish_type,
    features := u.features.getD r.features,
    line := u.line.getD r.line,
    description := match u.description with | some d => some d | none => r.description }

/-- The row replacement done by PaintRepository.update. -/
def updateFirstActivePaint : List PaintRow → Nat → PaintUpdate → Option (PaintRow × List PaintRow)
  | [], _, _ => none
  | r :: rest, pid, u =>
    if isActive r.deleted_at && r.id = pid then
      some (applyPaintUpdate r u, applyPaintUpdate r u :: rest)
    else
      (updateFirstActivePaint rest pid u).map (fun x => (x.1, r :: x.2))

/-- PaintRepository.update, lines 289–302. -/
def paint_repo_update (store : List PaintRow) (pid : Nat) (u : PaintUpdate) :
    Except String (Option PaintRow × List PaintRow) :=
  match updateFirstActivePaint store pid u with
  | none => .ok (none, store)
  | some (row, store1) => (commitPaints store1).map (fun s => (some row, s))

/-- PaintRepository.delete, lines 304–313. -/
def paint_repo_delete : List PaintRow → Nat → Nat → Bool × List PaintRow
  | [], _, _ => (false, [])
  | r :: rest, pid, now =>
    if isActive r.deleted_at && r.id = pid then
      (true, { r with deleted_at := some now } :: rest)
    else
      let res := paint_repo_delete rest pid now
      (res.1, r :: res.2)

/-- PaintService.create_paint, lines 237–255 of `application/services.py`;
`validate` stands for `PaintValidator.validate_paint_data`. -/
def create_paint (validate : PaintCreate → Bool) (store : List PaintRow)
    (p : PaintCreate) (newId : Nat) : Except String (List PaintRow) :=
  if !validate p then .error "validation failed"
  else if exists_active_by_name store p.name then
    .error "Paint with this name already exists"
  else paint_repo_create store p newId

/-- PaintService.update_paint, lines 279–297: when the update carries a
truthy name, the service reads the current row with `get_by_id` — an
`AttributeError` (wrapped into a plain `Exception`) when that row does not
exist — and rejects a name that differs from the current one but is already
taken by an active row. -/
def update_paint (validate : PaintUpdate → Bool) (store : List PaintRow)
    (pid : Nat) (u : PaintUpdate) : Except String (Option PaintRow × List PaintRow) :=
  if !validate u then .error "validation failed"
  else
    match u.name with
    | some nm =>
      if nm ≠ "" then
        match paint_get_by_id store pid with
        | none => .error "AttributeError on NoneType"
        | some cur =>
          if nm ≠ cur.name && exists_active_by_name store nm then
            .error "Paint with this name already exists"
          else paint_repo_update store pid u
      else paint_repo_update store pid u
    | none => paint_repo_update store pid u

/-! ### ai-orchestrator/app/services/context_service.py

Timestamps are seconds since an arbitrary epoch; the ISO strings stored in
`last_accessed` compare lexicographically exactly as their instants compare,
so the `Nat` order is the string order used by the code.  The constant
sub-dictionaries (`user_preferences`, `context_data`) carry no logic touched
by the specification and are omitted from the record. -/

/-- One entry of `conversation_history` (built in `update_context`,
lines 193–200). -/
structure HistEntry where
  timestamp : Nat
  message : String
  response : String
  intent : Option String
  tools_used : List String
  deriving DecidableEq, Repr

/-- The context dictionary built by `_create_new_context` /
`_create_minimal_context`. -/
structure Ctx where
  context_key : String
  session_id : Option String
  conversation_id : Option String
  created_at : Nat
  last_accessed : Nat
  message_count : Nat
  conversation_history : List HistEntry
  current_intent : Option String
  is_active : Bool
  deriving DecidableEq, Repr

/-- The context cache `self.context_cache`: a Python dict, i.e. an
insertion-ordered association list with pairwise distinct keys. -/
abbrev Cache := List (String × Ctx)

/-- ContextService.session_timeout = 60 * 60 (line 27). -/
def session_timeout : Nat := 60 * 60

/-- ContextService.max_context_size = 50 (line 28). -/
def max_context_size : Nat := 50

/-- Python's `(now - last).seconds` for `now ≥ last`: `timedelta.seconds` is
the seconds component below one day, not the total number of seconds. -/
def timedelta_seconds (now last : Nat) : Nat := (now - last) % 86400

/-- ContextService._is_context_valid, lines 168–175:
`(now - last_accessed).seconds < self.session_timeout`. -/
def is_context_valid (now : Nat) (c : Ctx) : Bool :=
  timedelta_seconds now c.last_accessed < session_timeout

/-- Dict lookup `context_key in self.context_cache`. -/
def cacheFind (cache : Cache) (k : String) : Option Ctx :=
  (cache.find? (fun kv => kv.1 = k)).map (·.2)

/-- Dict deletion `del self.context_cache[key]`. -/
def cacheErase (cache : Cache) (k : String) : Cache :=
  cache.filter (fun kv => kv.1 ≠ k)

/-- Dict assignment `self.context_cache[key] = c`: an existing key keeps its
position, a new key is appended. -/
def cacheInsert (cache : Cache) (k : String) (c : Ctx) : Cache :=
  if (cache.find? (fun kv => kv.1 = k)).isSome then
    cache.map (fun kv => if kv.1 = k then (k, c) else kv)
  else cache ++ [(k, c)]

/-- ContextService._cleanup_contexts_if_needed, lines 319–348: nothing below
the size bound; otherwise sort the items by `last_accessed` (ascending,
Python's stable sort) and delete the first `len - max_context_size` keys. -/
def cleanup_contexts_if_needed (cache : Cache) : Cache :=
  if cache.length ≤ max_context_size then cache
  else
    let sortedItems := cache.mergeSort
      (fun a b => decide (a.2.last_accessed ≤ b.2.last_accessed))
    let removedKeys := (sortedItems.take (cache.length - max_context_size)).map (·.1)
    cache.filter (fun kv => !removedKeys.contains kv.1)

/-- ContextService.cleanup_expired_contexts, lines 350–375: delete every
key whose context fails `_is_context_valid`. -/
def cleanup_expired_contexts (cache : Cache) (now : Nat) : Cache :=
  cache.filter (fun kv => is_context_valid now kv.2)

/-- ContextService._create_new_context, lines 107–137. -/
def create_new_context (session_id conversation_id : Option String)
    (context_key : String) (now : Nat) : Ctx :=
  { context_key := context_key, session_id := session_id,
    conversation_id := conversation_id, created_at := now, last_accessed := now,
    message_count := 0, conversation_history := [], current_intent := none,
    is_active := true }

/-- The fresh `uuid.uuid4()` strings drawn by `_create_minimal_context`. -/
structure FreshIds where
  key_uuid : String
  sid_uuid : String
  cid_uuid : String
  deriving DecidableEq, Repr

/-- ContextService._create_minimal_context, lines 139–153. -/
def create_minimal_context (now : Nat) (fresh : FreshIds) : Ctx :=
  { context_key := "minimal_" ++ fresh.key_uuid, session_id := some fresh.sid_uuid,
    conversation_id := some fresh.cid_uuid, created_at := now, last_accessed := now,
    message_count := 0, conversation_history := [], current_intent := none,
    is_active := true }

/-- ContextService.get_or_create_context, lines 32–105.  The two
`ValueError`s (both ids truthy, line 40; neither truthy, line 42) are caught
by the outer handler at line 96, which returns `_create_minimal_context()`
without touching the cache.  A cached and valid context gets its
`last_accessed` refreshed in place (line 61); a cached but invalid one is
deleted (line 66) and replaced; on every creation the new context is cached
and `_cleanup_contexts_if_needed` runs (lines 79–80). -/
def get_or_create_context (cache : Cache) (session_id conversation_id : Option String)
    (now : Nat) (fresh : FreshIds) : Ctx × Cache :=
  if truthy conversation_id && truthy session_id then
    (create_minimal_context now fresh, cache)
  else if !truthy conversation_id && !truthy session_id then
    (create_minimal_context now fresh, cache)
  else
    let context_key :=
      if truthy conversation_id then "conversation_" ++ conversation_id.getD ""
      else "session_" ++ session_id.getD ""
    match cacheFind cache context_key with
    | some c =>
      if is_context_valid now c then
        let c1 := { c with last_accessed := now }
        (c1, cacheInsert cache context_key c1)
      else
        let cache1 := cacheErase cache context_key
        let c1 := create_new_context session_id conversation_id context_key now
        (c1, cleanup_contexts_if_needed (cacheInsert cache1 context_key c1))
    | none =>
      let c1 := create_new_context session_id conversation_id context_key now
      (c1, cleanup_contexts_if_needed (cacheInsert cache context_key c1))

/-! ### ai-orchestrator/app/agents/paint_agent_simple.py -/

/-- One intermediate step of the agent run: the tool name and the raw
parameters and observation, as extracted at lines 243–273. -/
structure AgentStep where
  tool : String
  tool_input : String
  observation : String
  deriving DecidableEq, Repr

/-- What `agent.ainvoke` produced when it did not raise: the output text and
the intermediate steps. -/
structure AgentRun where
  output : String
  intermediate_steps : List AgentStep
  deriving DecidableEq, Repr

/-- The `AgentResponse` pydantic model of `models/schemas.py`
(lines 62–73). -/
structure AgentResponse where
  response : String
  recommendations : List String
  visual_url : Option String
  reasoning_steps : List AgentStep
  confidence : ℚ
  processing_time_ms : ℚ
  request_id : String
  response_id : String
  intent : String
  tools_used : List String
  deriving DecidableEq, Repr

/-- The canned apology text of the error branch (line 350). -/
def apologyText : String :=
  "Desculpe, estou com dificuldades técnicas. Por favor, tente novamente mais tarde."

/-- The fallback response built at lines 349–360 when any exception escapes
the body of `process_query`. -/
def errorAgentResponse (processing_time_ms : ℚ) (ts : Nat) : AgentResponse :=
  { response := apologyText, recommendations := [], visual_url := none,
    reasoning_steps := [], confidence := 3/10, processing_time_ms := processing_time_ms,
    request_id := "error_" ++ toString ts, response_id := "error_resp_" ++ toString ts,
    intent := "general_question", tools_used := [] }

/-- The intent classification at lines 297–301. -/
def classifyIntent (tools_used : List String) : String :=
  if tools_used.contains "paint_search" then "search_paint"
  else if tools_used.contains "visual_generation" then "visual_simulation"
  else "general_question"

/-- The confidence rule at line 303. -/
def agentConfidence (tools_used : List String) (response_text : String) : ℚ :=
  if !tools_used.isEmpty then 9/10
  else if response_text.length < 50 then 6/10
  else 8/10

/-- PaintAgentSimple.process_query, lines 170–360.  `agentResult` stands for
everything inside the outer `try` up to and including `agent.ainvoke`: any
exception raised there — the two `ValueError`s on bad id combinations
included, since the guard sits inside the `try` — lands in the handler at
line 343.  `clean` stands for `_clean_response` and `visualUrl` for the URL
recovered from the visual tool. -/
def process_query (conversation_id session_id : Option String)
    (agentResult : Except String AgentRun) (clean : String → String)
    (visualUrl : Option String) (processing_time_ms : ℚ) (ts : Nat) : AgentResponse :=
  if truthy conversation_id && truthy session_id then
    errorAgentResponse processing_time_ms ts
  else if !truthy conversation_id && !truthy session_id then
    errorAgentResponse processing_time_ms ts
  else
    match agentResult with
    | .error _ => errorAgentResponse processing_time_ms ts
    | .ok run =>
      let response_text := clean run.output
      let tools_used := run.intermediate_steps.map (·.tool)
      let intent := classifyIntent tools_used
      { response := response_text, recommendations := [],
        visual_url := if tools_used.contains "visual_generation" then visualUrl else none,
        reasoning_steps := run.intermediate_steps,
        confidence := agentConfidence tools_used response_text,
        processing_time_ms := processing_time_ms,
        request_id := "simple_" ++ toString ts,
        response_id := "simple_resp_" ++ toString ts,
        intent := intent, tools_used := tools_used }

/-! ### api/app/application/services.py — CSV import -/

/-- The flags of `CSVImportRequest` that `_process_csv_rows` consults. -/
structure ImportFlags where
  skip_duplicates : Bool
  update_existing : Bool
  deriving DecidableEq, Repr

/-- The running `CSVImportResult` (entities.py), as mutated by the loop. -/
structure CSVImportResult where
  total_rows : Nat
  successful_imports : Nat
  failed_imports : Nat
  errors : List String
  imported_paints : List Nat
  deriving DecidableEq, Repr

/-- The outcome of `update_paint` as seen by one CSV row: the call raised,
returned `None`, or returned the updated paint. -/
inductive UpdateOutcome where
  | raised
  | returnedNone
  | updated (pid : Nat)
  deriving DecidableEq, Repr

/-- Everything external that one iteration of the loop in
`_process_csv_rows` (lines 385–477) observes: whether the validators and
the `PaintCreate` construction succeed, whether `get_paint_by_name` finds an
existing paint, and how `update_paint` / `create_paint` and the final
`PaintResponse.model_validate` behave.  Embedding generation failures are
swallowed by the inner handlers (lines 440–442 and 464–466) and therefore
need no oracle. -/
structure RowEnv where
  validate_ok : Bool
  existing : Bool
  update_outcome : UpdateOutcome
  create_outcome : Option Nat
  post_ok : Bool
  deriving DecidableEq, Repr

/-- One iteration of the `for i, row in enumerate(csv_rows, start=2)` loop
of `_process_csv_rows`.  Every path either appends to `errors` and bumps
`failed_imports`, or appends to `imported_paints` and bumps
`successful_imports`; a late exception (`post_ok = false`, e.g. from
`model_validate`) is caught by the per-row handler and counted failed. -/
def process_csv_row (flags : ImportFlags) (acc : CSVImportResult) (env : RowEnv) :
    CSVImportResult :=
  let fail : CSVImportResult :=
    { acc with failed_imports := acc.failed_imports + 1, errors := acc.errors ++ ["row error"] }
  if !env.validate_ok then fail
  else if env.existing then
    if flags.skip_duplicates then fail
    else if flags.update_existing then
      match env.update_outcome with
      | .raised => fail
      | .returnedNone => fail
      | .updated pid =>
        if env.post_ok then
          { acc with successful_imports := acc.successful_imports + 1,
                     imported_paints := acc.imported_paints ++ [pid] }
        else fail
    else fail
  else
    match env.create_outcome with
    | none => fail
    | some pid =>
      if env.post_ok then
        { acc with successful_imports := acc.successful_imports + 1,
                   imported_paints := acc.imported_paints ++ [pid] }
      else fail

/-- CSVImportService._process_csv_rows, lines 372–479: `total_rows` is fixed
to the number of parsed data rows up front, the counters start at zero, and
the loop folds over the rows. -/
def process_csv_rows (flags : ImportFlags) (rows : List RowEnv) : CSVImportResult :=
  rows.foldl (process_csv_row flags)
    { total_rows := rows.length, successful_imports := 0, failed_imports := 0,
      errors := [], imported_paints := [] }

/-! ## Theorems -/

/-- C2: search_similar_paints returns an empty list — and, being total,
never raises — when the embedding call fails (`none`) or the candidate set
is empty; the orchestrator's search_with_retrieval likewise returns an
empty list when the backend call fails, and passes an empty backend result
through unchanged. -/
theorem search_empty_or_failure_yields_empty :
    (∀ sim paints limit threshold,
        search_similar_paints sim none paints limit threshold = [])
  ∧ (∀ sim q limit threshold,
        search_similar_paints sim (some q) [] limit threshold = [])
  ∧ (∀ e env, search_with_retrieval (Except.error e) env = [])
  ∧ (∀ env, search_with_retrieval (Except.ok []) env = []) := by
  refine ⟨fun _ _ _ _ => rfl, fun _ _ _ _ => rfl, fun _ _ => rfl, fun env => ?_⟩
  simp [search_with_retrieval, filter_results_by_environment]

/-- Per-row accounting of the CSV import loop: every iteration bumps
exactly one of the two counters and keeps `total_rows` unchanged. -/
theorem process_csv_row_accounting (flags : ImportFlags) (acc : CSVImportResult)
    (env : RowEnv) :
    (process_csv_row flags acc env).successful_imports
      + (process_csv_row flags acc env).failed_imports
      = acc.successful_imports + acc.failed_imports + 1
  ∧ (process_csv_row flags acc env).total_rows = acc.total_rows := by
  rcases flags with ⟨sd, ue⟩
  rcases env with ⟨v, ex, uo, co, po⟩
  unfold process_csv_row
  cases v <;> cases ex <;> cases sd <;> cases ue <;> cases po <;>
    rcases uo with _ | _ | upid <;> rcases co with _ | cpid <;>
    exact ⟨by simp +arith, by simp⟩

/-- Folding the per-row accounting over the whole row list. -/
theorem process_csv_rows_foldl (flags : ImportFlags) (rows : List RowEnv)
    (acc : CSVImportResult) :
    (rows.foldl (process_csv_row flags) acc).successful_imports
      + (rows.foldl (process_csv_row flags) acc).failed_imports
      = acc.successful_imports + acc.failed_imports + rows.length
  ∧ (rows.foldl (process_csv_row flags) acc).total_rows = acc.total_rows := by
  induction rows generalizing acc with
  | nil => simp
  | cons e rest ih =>
    have hstep := process_csv_row_accounting flags acc e
    have hrest := ih (process_csv_row flags acc e)
    simp only [List.foldl_cons, List.length_cons]
    refine ⟨?_, by rw [hrest.2, hstep.2]⟩
    rw [hrest.1, hstep.1]
    omega

/-- C10: for every list of parsed CSV rows and any behaviour of the
validators, duplicate lookup, update, create and response-formatting calls,
each row of `_process_csv_rows` increments exactly one of
`successful_imports` and `failed_imports`, so the returned result satisfies
`total_rows = successful_imports + failed_imports` with `total_rows` the
number of data rows. -/
theorem csv_import_accounting_consistent (flags : ImportFlags) (rows : List RowEnv) :
    (process_csv_rows flags rows).total_rows = rows.length
  ∧ (process_csv_rows flags rows).successful_imports
      + (process_csv_rows flags rows).failed_imports
      = (process_csv_rows flags rows).total_rows
  ∧ ∀ acc env,
      (process_csv_row flags acc env).successful_imports
        + (process_csv_row flags acc env).failed_imports
        = acc.successful_imports + acc.failed_imports + 1 := by
  have h := process_csv_rows_foldl flags rows
    { total_rows := rows.length, successful_imports := 0, failed_imports := 0,
      errors := [], imported_paints := [] }
  refine ⟨?_, ?_, fun acc env => (process_csv_row_accounting flags acc env).1⟩ <;>
    unfold process_csv_rows
  · rw [h.2]
  · rw [h.1, h.2]; simp

/-- C6: whenever the agent processing raises (any exception inside the
body of `process_query`, the id-combination `ValueError`s included), the
chat path answers with the canned apology response: the fixed apology text,
no visual URL, no tools used, and a well-formed confidence of 0.3. -/
theorem agent_error_returns_apology (cid sid : Option String)
    (agentResult : Except String AgentRun) (clean : String → String)
    (visualUrl : Option String) (t : ℚ) (ts : Nat) (msg : String)
    (h : agentResult = .error msg) :
    process_query cid sid agentResult clean visualUrl t ts = errorAgentResponse t ts
  ∧ (process_query cid sid agentResult clean visualUrl t ts).response = apologyText
  ∧ (process_query cid sid agentResult clean visualUrl t ts).visual_url = none
  ∧ (process_query cid sid agentResult clean visualUrl t ts).tools_used = []
  ∧ 0 ≤ (process_query cid sid agentResult clean visualUrl t ts).confidence
  ∧ (process_query cid sid agentResult clean visualUrl t ts).confidence ≤ 1 := by
  subst h
  have heq : process_query cid sid (Except.error msg) clean visualUrl t ts
      = errorAgentResponse t ts := by
    unfold process_query
    split
    · rfl
    · split <;> rfl
  refine ⟨heq, ?_, ?_, ?_, ?_, ?_⟩ <;> rw [heq] <;> simp [errorAgentResponse] <;> norm_num

/-- Closed witness for the apology fallback: a concrete failed agent run. -/
theorem agent_error_returns_apology_witness :
    process_query (some "conv-1") none (Except.error "boom") id none 12 7
      = errorAgentResponse 12 7
  ∧ (process_query (some "conv-1") none (Except.error "boom") id none 12 7).response
      = apologyText
  ∧ (process_query (some "conv-1") none (Except.error "boom") id none 12 7).visual_url
      = none
  ∧ (process_query (some "conv-1") none (Except.error "boom") id none 12 7).tools_used
      = [] := by
  have h := agent_error_returns_apology (some "conv-1") none (Except.error "boom")
    id none 12 7 "boom" rfl
  exact ⟨h.1, h.2.1, h.2.2.1, h.2.2.2.1⟩

/-- C9: get_or_create_context is total at its public interface (the model
covers every branch of the Python body, including the caught internal
`ValueError`s), and on the invalid id combinations — both truthy or neither
truthy — it leaves the cache alone and returns a fresh minimal context,
whose conversation history is empty. -/
theorem get_or_create_context_total_minimal (cache : Cache)
    (sid cid : Option String) (now : Nat) (fresh : FreshIds) :
    (truthy cid = true → truthy sid = true →
        get_or_create_context cache sid cid now fresh
          = (create_minimal_context now fresh, cache))
  ∧ (truthy cid = false → truthy sid = false →
        get_or_create_context cache sid cid now fresh
          = (create_minimal_context now fresh, cache))
  ∧ (create_minimal_context now fresh).conversation_history = []
  ∧ (create_minimal_context now fresh).message_count = 0 := by
  refine ⟨?_, ?_, rfl, rfl⟩ <;> intro h1 h2 <;> unfold get_or_create_context <;>
    simp [h1, h2]

/-- Closed witness: both ids supplied yields the minimal context and an
untouched cache. -/
theorem get_or_create_context_total_minimal_witness :
    get_or_create_context [] (some "sess-9") (some "conv-9") 5 ⟨"k", "s", "c"⟩
      = (create_minimal_context 5 ⟨"k", "s", "c"⟩, [])
  ∧ get_or_create_context [] none none 5 ⟨"k", "s", "c"⟩
      = (create_minimal_context 5 ⟨"k", "s", "c"⟩, []) := by
  refine ⟨?_, ?_⟩
  · exact (get_or_create_context_total_minimal [] (some "sess-9") (some "conv-9")
      5 ⟨"k", "s", "c"⟩).1 rfl rfl
  · exact (get_or_create_context_total_minimal [] none none
      5 ⟨"k", "s", "c"⟩).2.1 rfl rfl

/-- C4 fails on the code: `_is_context_valid` compares
`timedelta.seconds` — the sub-day seconds component — against the
timeout, so a context last accessed exactly one day (86400 s ≥ 3600 s) ago
is judged valid: `get_or_create_context` returns the stale cached context
(its `created_at` is still 0, so it is not a fresh one) instead of
replacing it, and `cleanup_expired_contexts` keeps it in the cache. -/
theorem context_expiry_ignores_whole_days :
    session_timeout ≤ 86400
  ∧ is_context_valid 86400 (create_new_context (some "s") none "session_s" 0) = true
  ∧ (get_or_create_context [("session_s", create_new_context (some "s") none "session_s" 0)]
        (some "s") none 86400 ⟨"u1", "u2", "u3"⟩).1.created_at = 0
  ∧ (get_or_create_context [("session_s", create_new_context (some "s") none "session_s" 0)]
        (some "s") none 86400 ⟨"u1", "u2", "u3"⟩).2
      = [("session_s",
          { create_new_context (some "s") none "session_s" 0 with last_accessed := 86400 })]
  ∧ cleanup_expired_contexts
        [("session_s", create_new_context (some "s") none "session_s" 0)] 86400
      = [("session_s", create_new_context (some "s") none "session_s" 0)] := by
  refine ⟨by decide, by decide, ?_, ?_, by decide⟩ <;> decide

/-- The sum of squares making up `normSq` is never negative. -/
theorem normSq_nonneg (v : List ℚ) : 0 ≤ normSq v := by
  unfold normSq dotProduct
  induction v with
  | nil => simp
  | cons x xs ih =>
    simp only [List.zipWith_cons_cons, List.sum_cons]
    exact add_nonneg (mul_self_nonneg x) ih

/-- C8: `_calculate_similarity` implements cosine similarity with a
zero-norm guard: the zero branch fires exactly when one of the vectors is
the zero vector (the norm vanishes iff the sum of squares does), and in the
other branch the denominator is provably non-zero and the result is
`dot q p / (‖q‖ * ‖p‖)`. -/
theorem calculate_similarity_is_cosine (q p : List ℚ) :
    (npNorm q = 0 ↔ normSq q = 0)
  ∧ (npNorm q = 0 ∨ npNorm p = 0 → calculate_similarity q p = 0)
  ∧ (npNorm q ≠ 0 → npNorm p ≠ 0 →
      npNorm q * npNorm p ≠ 0 ∧
      calculate_similarity q p
        = ((dotProduct q p : ℚ) : ℝ) / (npNorm q * npNorm p)) := by
  refine ⟨?_, ?_, ?_⟩
  · unfold npNorm
    rw [Real.sqrt_eq_zero']
    constructor
    · intro hle
      have h0 : normSq q ≤ 0 := by exact_mod_cast hle
      exact le_antisymm h0 (normSq_nonneg q)
    · intro h0
      rw [h0]; simp
  · intro h
    unfold calculate_similarity
    rw [if_pos h]
  · intro hq hp
    refine ⟨mul_ne_zero hq hp, ?_⟩
    unfold calculate_similarity
    rw [if_neg]
    push_neg
    exact ⟨hq, hp⟩

/-- Closed witness: the zero vector hits the guard and gives 0, and two
equal unit vectors give cosine similarity 1. -/
theorem calculate_similarity_is_cosine_witness :
    calculate_similarity [(0 : ℚ)] [(1 : ℚ)] = 0
  ∧ calculate_similarity [(1 : ℚ)] [(1 : ℚ)] = 1 := by
  have h0 : npNorm [(0 : ℚ)] = 0 := by
    unfold npNorm normSq dotProduct
    norm_num
  have h1 : npNorm [(1 : ℚ)] = 1 := by
    unfold npNorm normSq dotProduct
    norm_num
  constructor
  · exact (calculate_similarity_is_cosine [(0 : ℚ)] [(1 : ℚ)]).2.1 (Or.inl h0)
  · have h := (calculate_similarity_is_cosine [(1 : ℚ)] [(1 : ℚ)]).2.2
      (by rw [h1]; norm_num) (by rw [h1]; norm_num)
    rw [h.2, h1]
    unfold dotProduct
    norm_num

/-- When every candidate has the query's dimension, the scoring loop of
`search_similar_paints` is the threshold filter over the scored
candidates. -/
theorem filterMap_scores_eq_filter (sim : List ℚ → List ℚ → ℚ) (q : List ℚ)
    (paints : List PaintRec) (threshold : ℚ)
    (hdim : ∀ p ∈ paints, p.embedding.length = q.length) :
    (paints.filterMap (fun p =>
        if p.embedding.length = q.length then
          let s := sim q p.embedding
          if threshold ≤ s then some (p, s) else none
        else none))
      = ((paints.map (fun p => (p, sim q p.embedding))).filter
          (fun x => decide (threshold ≤ x.2))) := by
  induction paints with
  | nil => rfl
  | cons a l ih =>
    have ha := hdim a (List.mem_cons_self a l)
    have ih1 := ih (fun p hp => hdim p (List.mem_cons_of_mem a hp))
    simp only [List.filterMap_cons, List.map_cons, List.filter_cons, ha, if_true]
    by_cases hth : threshold ≤ sim q a.embedding
    · simp [hth, ih1]
    · simp [hth, ih1]

/-- C1: for a successfully embedded query whose candidates all carry
embeddings of the query's dimension, `search_similar_paints` returns the
`limit`-prefix of a list that is a permutation of exactly the candidates
scoring at least the threshold, sorted by descending similarity. -/
theorem search_keeps_sorts_truncates (sim : List ℚ → List ℚ → ℚ) (q : List ℚ)
    (paints : List PaintRec) (limit : Nat) (threshold : ℚ)
    (hdim : ∀ p ∈ paints, p.embedding.length = q.length) :
    ∃ kept : List (PaintRec × ℚ),
      search_similar_paints sim (some q) paints limit threshold
        = (kept.take limit).map formatResult
    ∧ kept.Perm ((paints.map (fun p => (p, sim q p.embedding))).filter
        (fun x => decide (threshold ≤ x.2)))
    ∧ kept.Sorted (fun a b => b.2 ≤ a.2) := by
  by_cases hp : paints.isEmpty
  · rw [List.isEmpty_iff] at hp
    subst hp
    exact ⟨[], by simp [search_similar_paints], List.Perm.refl _, List.sorted_nil⟩
  · refine ⟨(paints.filterMap (fun p =>
        if p.embedding.length = q.length then
          let s := sim q p.embedding
          if threshold ≤ s then some (p, s) else none
        else none)).mergeSort (fun a b => decide (b.2 ≤ a.2)), ?_, ?_, ?_⟩
    · simp only [search_similar_paints]
      rw [if_neg hp]
    · exact (List.mergeSort_perm _ _).trans
        (by rw [filterMap_scores_eq_filter sim q paints threshold hdim])
    · have hs : List.Pairwise
          (fun a b : PaintRec × ℚ => (decide (b.2 ≤ a.2)) = true)
          ((paints.filterMap (fun p =>
            if p.embedding.length = q.length then
              let s := sim q p.embedding
              if threshold ≤ s then some (p, s) else none
            else none)).mergeSort (fun a b => decide (b.2 ≤ a.2))) := by
        apply List.sorted_mergeSort
        · intro a b c hab hbc
          exact decide_eq_true (le_trans (of_decide_eq_true hbc) (of_decide_eq_true hab))
        · intro a b
          simp only [Bool.or_eq_true, decide_eq_true_eq]
          exact le_total b.2 a.2
      exact hs.imp (fun h => of_decide_eq_true h)

/-- A two-paint demonstration catalog used by the closed witnesses. -/
def demoCatalog : List PaintRec :=
  [{ id := 1, name := "A", color := "azul", environment := "interno",
     embedding := [1, 0] },
   { id := 2, name := "B", color := "branco", environment := "interno",
     embedding := [0, 1] }]

/-- Closed witness for the retrieval contract, on a two-candidate catalog
with the dot product as scorer. -/
theorem search_keeps_sorts_truncates_witness :
    (∀ p ∈ demoCatalog, p.embedding.length = ([(1 : ℚ), 0] : List ℚ).length)
  ∧ ∃ kept : List (PaintRec × ℚ),
      search_similar_paints dotProduct (some [(1 : ℚ), 0]) demoCatalog 10 (1/2)
        = (kept.take 10).map formatResult
    ∧ kept.Perm ((demoCatalog.map
          (fun p => (p, dotProduct [(1 : ℚ), 0] p.embedding))).filter
          (fun x => decide ((1/2 : ℚ) ≤ x.2)))
    ∧ kept.Sorted (fun a b => b.2 ≤ a.2) := by
  refine ⟨by decide, ?_⟩
  exact search_keeps_sorts_truncates dotProduct [(1 : ℚ), 0] demoCatalog 10 (1/2)
    (by decide)

/-- A commit on the users table succeeds only with the partial unique
indexes intact, and returns the committed state. -/
theorem commitUsers_ok {s s' : List UserRow} (h : commitUsers s = .ok s') :
    usersUnique s' ∧ s' = s := by
  unfold commitUsers at h
  split at h
  · cases h
    exact ⟨by assumption, rfl⟩
  · exact (Except.noConfusion h)

/-- A commit on the paints table succeeds only with the partial unique
index intact, and returns the committed state. -/
theorem commitPaints_ok {s s' : List PaintRow} (h : commitPaints s = .ok s') :
    paintsUnique s' ∧ s' = s := by
  unfold commitPaints at h
  split at h
  · cases h
    exact ⟨by assumption, rfl⟩
  · exact (Except.noConfusion h)

/-- A successful repository-level user update leaves the unique indexes
intact (the untouched store when the row was not found, the committed
store otherwise). -/
theorem user_repo_update_ok {store : List UserRow} {uid : Nat} {uu : UserUpdate}
    {out : Option UserRow × List UserRow} (hU : usersUnique store)
    (h : user_repo_update store uid uu = .ok out) : usersUnique out.2 := by
  unfold user_repo_update at h
  cases hfind : updateFirstActiveUser store uid uu with
  | none =>
    rw [hfind] at h
    cases h
    exact hU
  | some pr =>
    obtain ⟨row, store1⟩ := pr
    rw [hfind] at h
    dsimp only at h
    cases hc : commitUsers store1 with
    | error e =>
      rw [hc] at h
      simp [Except.map] at h
    | ok s =>
      rw [hc] at h
      dsimp [Except.map] at h
      cases h
      exact (commitUsers_ok hc).1

/-- A successful repository-level paint update leaves the unique index
intact. -/
theorem paint_repo_update_ok {store : List PaintRow} {pid : Nat} {pu : PaintUpdate}
    {out : Option PaintRow × List PaintRow} (hP : paintsUnique store)
    (h : paint_repo_update store pid pu = .ok out) : paintsUnique out.2 := by
  unfold paint_repo_update at h
  cases hfind : updateFirstActivePaint store pid pu with
  | none =>
    rw [hfind] at h
    cases h
    exact hP
  | some pr =>
    obtain ⟨row, store1⟩ := pr
    rw [hfind] at h
    dsimp only at h
    cases hc : commitPaints store1 with
    | error e =>
      rw [hc] at h
      simp [Except.map] at h
    | ok s =>
      rw [hc] at h
      dsimp [Except.map] at h
      cases h
      exact (commitPaints_ok hc).1

/-- C3: the service layer rejects a duplicate active email or username on
user creation and a duplicate active name on paint creation, and every
create and update of users and paints that returns successfully preserves
the invariant that non-deleted rows have pairwise distinct emails,
usernames and paint names (updates are guarded by the partial unique
indexes of `models.py` at commit time). -/
theorem crud_preserves_uniqueness
    (vU : UserCreate → Bool) (vUu : UserUpdate → Bool) (vP : PaintCreate → Bool)
    (vPu : PaintUpdate → Bool) (hash : String → String)
    (ustore : List UserRow) (pstore : List PaintRow)
    (u : UserCreate) (uu : UserUpdate) (p : PaintCreate) (pu : PaintUpdate)
    (uid pid newId : Nat)
    (hU : usersUnique ustore) (hP : paintsUnique pstore) :
    (vU u = true → exists_active_by_email ustore u.email = true →
        create_user vU hash ustore u newId
          = .error "User with this email already exists")
  ∧ (vU u = true → exists_active_by_email ustore u.email = false →
        exists_active_by_username ustore u.username = true →
        create_user vU hash ustore u newId
          = .error "User with this username already exists")
  ∧ (vP p = true → exists_active_by_name pstore p.name = true →
        create_paint vP pstore p newId
          = .error "Paint with this name already exists")
  ∧ (∀ s, create_user vU hash ustore u newId = .ok s → usersUnique s)
  ∧ (∀ out, update_user vUu hash ustore uid uu = .ok out → usersUnique out.2)
  ∧ (∀ s, create_paint vP pstore p newId = .ok s → paintsUnique s)
  ∧ (∀ out, update_paint vPu pstore pid pu = .ok out → paintsUnique out.2) := by
  refine ⟨?_, ?_, ?_, ?_, ?_, ?_, ?_⟩
  · intro hv hdup
    simp [create_user, hv, hdup]
  · intro hv hmail huser
    simp [create_user, hv, hmail, huser]
  · intro hv hdup
    simp [create_paint, hv, hdup]
  · intro s h
    unfold create_user at h
    split at h
    · exact (Except.noConfusion h)
    · split at h
      · exact (Except.noConfusion h)
      · split at h
        · exact (Except.noConfusion h)
        · unfold user_repo_create at h
          exact (commitUsers_ok h).1
  · intro out h
    unfold update_user at h
    split at h
    · exact (Except.noConfusion h)
    · split at h
      · split at h
        · exact user_repo_update_ok hU h
        · exact user_repo_update_ok hU h
      · exact user_repo_update_ok hU h
  · intro s h
    unfold create_paint at h
    split at h
    · exact (Except.noConfusion h)
    · split at h
      · exact (Except.noConfusion h)
      · unfold paint_repo_create at h
        exact (commitPaints_ok h).1
  · intro out h
    unfold update_paint at h
    split at h
    · exact (Except.noConfusion h)
    · split at h
      · split at h
        · split at h
          · exact (Except.noConfusion h)
          · split at h
            · exact (Except.noConfusion h)
            · exact paint_repo_update_ok hP h
        · exact paint_repo_update_ok hP h
      · exact paint_repo_update_ok hP h

/-- A concrete active user row for the closed witnesses. -/
def demoUser : UserRow :=
  { id := 1, email := "alice@mail.co", username := "alice", full_name := "Alice A",
    hashed_password := "h1", role := "user", status := "active",
    last_login := none, deleted_at := none }

/-- A concrete active paint row for the closed witnesses. -/
def demoPaint : PaintRow :=
  { id := 1, name := "Azulim", color := "azul", surface_types := ["alvenaria"],
    environment := "interno", finish_type := "fosco", features := [],
    line := "premium", description := none, embedding := none, deleted_at := none }

/-- Closed witness: the uniqueness contract instantiated on one-row
stores. -/
theorem crud_preserves_uniqueness_witness :
    usersUnique [demoUser] ∧ paintsUnique [demoPaint] ∧
    (((fun _ => true) : UserCreate → Bool)
        { email := "alice@mail.co", username := "bob", full_name := "Bob B",
          password := "longpass", role := "user", status := "active" } = true →
      exists_active_by_email [demoUser] "alice@mail.co" = true →
      create_user (fun _ => true) id [demoUser]
          { email := "alice@mail.co", username := "bob", full_name := "Bob B",
            password := "longpass", role := "user", status := "active" } 2
        = .error "User with this email already exists") ∧
    (∀ out, update_user (fun _ => true) id [demoUser] 1 {} = .ok out →
        usersUnique out.2) := by
  have h := crud_preserves_uniqueness (fun _ => true) (fun _ => true)
    (fun _ => true) (fun _ => true) id [demoUser] [demoPaint]
    { email := "alice@mail.co", username := "bob", full_name := "Bob B",
      password := "longpass", role := "user", status := "active" } {}
    { name := "Azulim", color := "verde", surface_types := ["alvenaria"],
      environment := "interno", finish_type := "fosco", features := [],
      line := "premium" } {} 1 1 2 (by decide) (by decide)
  exact ⟨by decide, by decide, h.1, h.2.2.2.2.1⟩

/-- When no active row carries the id, the paint delete loop returns
`False` without touching any row. -/
theorem paint_repo_delete_not_found (store : List PaintRow) (pid now : Nat)
    (h : ∀ x ∈ store, x.deleted_at = none → x.id ≠ pid) :
    paint_repo_delete store pid now = (false, store) := by
  induction store with
  | nil => rfl
  | cons r rest ih =>
    have hr := h r (List.mem_cons_self r rest)
    have ih1 := ih (fun x hx => h x (List.mem_cons_of_mem r hx))
    unfold paint_repo_delete
    rw [if_neg (by
      simp only [isActive, Bool.and_eq_true, decide_eq_true_eq]
      rintro ⟨h1, h2⟩
      exact hr h1 h2)]
    rw [ih1]

/-- When the first active row with the id is `r`, the paint delete loop
returns `True` and rewrites exactly that row's `deleted_at`, every other
row and every other field staying untouched. -/
theorem paint_repo_delete_found (l₁ l₂ : List PaintRow) (r : PaintRow) (pid now : Nat)
    (hr1 : r.deleted_at = none) (hr2 : r.id = pid)
    (h1 : ∀ x ∈ l₁, x.deleted_at = none → x.id ≠ pid) :
    paint_repo_delete (l₁ ++ r :: l₂) pid now
      = (true, l₁ ++ { r with deleted_at := some now } :: l₂) := by
  induction l₁ with
  | nil =>
    simp only [List.nil_append]
    unfold paint_repo_delete
    rw [if_pos (by simp [isActive, hr1, hr2])]
  | cons a rest ih =>
    have ha := h1 a (List.mem_cons_self a rest)
    have ih1 := ih (fun x hx => h1 x (List.mem_cons_of_mem a hx))
    simp only [List.cons_append]
    unfold paint_repo_delete
    rw [if_neg (by
      simp only [isActive, Bool.and_eq_true, decide_eq_true_eq]
      rintro ⟨hb1, hb2⟩
      exact ha hb1 hb2)]
    rw [ih1]

/-- After the soft delete, no active row of the store carries the deleted
id (the replaced row is inactive, and primary keys are unique). -/
theorem no_active_row_with_deleted_id (l₁ l₂ : List PaintRow) (r : PaintRow)
    (pid now : Nat) (hr2 : r.id = pid)
    (hids : (((l₁ ++ r :: l₂).map (fun x => x.id)).Nodup)) :
    ∀ x ∈ l₁ ++ { r with deleted_at := some now } :: l₂,
      x.deleted_at = none → x.id ≠ pid := by
  rw [List.map_append, List.map_cons, hr2] at hids
  have hmid := (List.nodup_middle.mp hids)
  have hnot : pid ∉ l₁.map (fun x => x.id) ++ l₂.map (fun x => x.id) :=
    (List.nodup_cons.mp hmid).1
  rw [List.mem_append] at hnot
  intro x hx hact
  rcases List.mem_append.mp hx with hx1 | hx2
  · intro hxid
    exact hnot (Or.inl (List.mem_map.mpr ⟨x, hx1, hxid⟩))
  · rcases List.mem_cons.mp hx2 with hxr | hx3
    · rw [hxr] at hact
      simp at hact
    · intro hxid
      exact hnot (Or.inr (List.mem_map.mpr ⟨x, hx3, hxid⟩))

/-- The user-side analogues of the two delete lemmas, proved the same
way. -/
theorem user_repo_delete_not_found (store : List UserRow) (uid now : Nat)
    (h : ∀ x ∈ store, x.deleted_at = none → x.id ≠ uid) :
    user_repo_delete store uid now = (false, store) := by
  induction store with
  | nil => rfl
  | cons r rest ih =>
    have hr := h r (List.mem_cons_self r rest)
    have ih1 := ih (fun x hx => h x (List.mem_cons_of_mem r hx))
    unfold user_repo_delete
    rw [if_neg (by
      simp only [isActive, Bool.and_eq_true, decide_eq_true_eq]
      rintro ⟨h1, h2⟩
      exact hr h1 h2)]
    rw [ih1]

/-- Successful user soft delete: only the first active matching row's
`deleted_at` changes. -/
theorem user_repo_delete_found (l₁ l₂ : List UserRow) (r : UserRow) (uid now : Nat)
    (hr1 : r.deleted_at = none) (hr2 : r.id = uid)
    (h1 : ∀ x ∈ l₁, x.deleted_at = none → x.id ≠ uid) :
    user_repo_delete (l₁ ++ r :: l₂) uid now
      = (true, l₁ ++ { r with deleted_at := some now } :: l₂) := by
  induction l₁ with
  | nil =>
    simp only [List.nil_append]
    unfold user_repo_delete
    rw [if_pos (by simp [isActive, hr1, hr2])]
  | cons a rest ih =>
    have ha := h1 a (List.mem_cons_self a rest)
    have ih1 := ih (fun x hx => h1 x (List.mem_cons_of_mem a hx))
    simp only [List.cons_append]
    unfold user_repo_delete
    rw [if_neg (by
      simp only [isActive, Bool.and_eq_true, decide_eq_true_eq]
      rintro ⟨hb1, hb2⟩
      exact ha hb1 hb2)]
    rw [ih1]

/-- The user-side active-row exclusion after a soft delete. -/
theorem no_active_user_with_deleted_id (l₁ l₂ : List UserRow) (r : UserRow)
    (uid now : Nat) (hr2 : r.id = uid)
    (hids : (((l₁ ++ r :: l₂).map (fun x => x.id)).Nodup)) :
    ∀ x ∈ l₁ ++ { r with deleted_at := some now } :: l₂,
      x.deleted_at = none → x.id ≠ uid := by
  rw [List.map_append, List.map_cons, hr2] at hids
  have hmid := (List.nodup_middle.mp hids)
  have hnot : uid ∉ l₁.map (fun x => x.id) ++ l₂.map (fun x => x.id) :=
    (List.nodup_cons.mp hmid).1
  rw [List.mem_append] at hnot
  intro x hx hact
  rcases List.mem_append.mp hx with hx1 | hx2
  · intro hxid
    exact hnot (Or.inl (List.mem_map.mpr ⟨x, hx1, hxid⟩))
  · rcases List.mem_cons.mp hx2 with hxr | hx3
    · rw [hxr] at hact
      simp at hact
    · intro hxid
      exact hnot (Or.inr (List.mem_map.mpr ⟨x, hx3, hxid⟩))

/-- C7: soft delete is the only state change of delete, for paints and
users alike.  When no non-deleted row carries the id the operation returns
`False` and leaves the store untouched; when it succeeds it flips only the
`deleted_at` of the first active row with that id, and afterwards — with
primary keys unique — `get_by_id` no longer finds the id, `get_by_name`
never returns a row with that id, and `get_all` (any filters, any
pagination) excludes it. -/
theorem soft_delete_frame
    (pstore : List PaintRow) (ustore : List UserRow) (pid uid now : Nat)
    (l₁ l₂ : List PaintRow) (r : PaintRow) (m₁ m₂ : List UserRow) (w : UserRow)
    (flt : PaintRow → Bool) (skip lim : Nat) :
    ((∀ x ∈ pstore, x.deleted_at = none → x.id ≠ pid) →
        paint_repo_delete pstore pid now = (false, pstore))
  ∧ ((∀ x ∈ ustore, x.deleted_at = none → x.id ≠ uid) →
        user_repo_delete ustore uid now = (false, ustore))
  ∧ (r.deleted_at = none → r.id = pid →
      (∀ x ∈ l₁, x.deleted_at = none → x.id ≠ pid) →
      paint_repo_delete (l₁ ++ r :: l₂) pid now
          = (true, l₁ ++ { r with deleted_at := some now } :: l₂)
      ∧ ((((l₁ ++ r :: l₂).map (fun x => x.id)).Nodup) →
          paint_get_by_id (l₁ ++ { r with deleted_at := some now } :: l₂) pid = none
        ∧ (∀ x, paint_get_by_name (l₁ ++ { r with deleted_at := some now } :: l₂) r.name
              = some x → x.id ≠ pid)
        ∧ (∀ x ∈ paint_get_all (l₁ ++ { r with deleted_at := some now } :: l₂) flt skip lim,
              x.id ≠ pid)))
  ∧ (w.deleted_at = none → w.id = uid →
      (∀ x ∈ m₁, x.deleted_at = none → x.id ≠ uid) →
      user_repo_delete (m₁ ++ w :: m₂) uid now
          = (true, m₁ ++ { w with deleted_at := some now } :: m₂)
      ∧ ((((m₁ ++ w :: m₂).map (fun x => x.id)).Nodup) →
          user_get_by_id (m₁ ++ { w with deleted_at := some now } :: m₂) uid = none)) := by
  refine ⟨paint_repo_delete_not_found pstore pid now,
          user_repo_delete_not_found ustore uid now, ?_, ?_⟩
  · intro hr1 hr2 h1
    refine ⟨paint_repo_delete_found l₁ l₂ r pid now hr1 hr2 h1, ?_⟩
    intro hids
    have hkey := no_active_row_with_deleted_id l₁ l₂ r pid now hr2 hids
    refine ⟨?_, ?_, ?_⟩
    · unfold paint_get_by_id
      rw [List.find?_eq_none]
      intro x hx
      simp only [isActive, Bool.and_eq_true, decide_eq_true_eq, not_and]
      exact fun hact => hkey x hx hact
    · intro x hfind
      have hx := List.mem_of_find?_eq_some hfind
      have hpred := List.find?_some hfind
      simp only [isActive, Bool.and_eq_true, decide_eq_true_eq] at hpred
      exact hkey x hx hpred.1
    · intro x hx
      unfold paint_get_all at hx
      have hx1 := List.mem_of_mem_drop (List.mem_of_mem_take hx)
      have hx2 := (List.mem_filter.mp hx1).1
      have hx3 := List.mem_filter.mp hx2
      have hact : x.deleted_at = none := by
        have := hx3.2
        simpa [isActive] using this
      exact hkey x hx3.1 hact
  · intro hw1 hw2 h1
    refine ⟨user_repo_delete_found m₁ m₂ w uid now hw1 hw2 h1, ?_⟩
    intro hids
    have hkey := no_active_user_with_deleted_id m₁ m₂ w uid now hw2 hids
    unfold user_get_by_id
    rw [List.find?_eq_none]
    intro x hx
    simp only [isActive, Bool.and_eq_true, decide_eq_true_eq, not_and]
    exact fun hact => hkey x hx hact

/-- Closed witness: deleting the demo paint and the demo user from
one-row stores, plus the not-found case on an id that is absent. -/
theorem soft_delete_frame_witness :
    paint_repo_delete [demoPaint] 7 99 = (false, [demoPaint])
  ∧ paint_repo_delete [demoPaint] 1 99
      = (true, [{ demoPaint with deleted_at := some 99 }])
  ∧ paint_get_by_id [{ demoPaint with deleted_at := some 99 }] 1 = none
  ∧ user_repo_delete [demoUser] 1 99
      = (true, [{ demoUser with deleted_at := some 99 }])
  ∧ user_get_by_id [{ demoUser with deleted_at := some 99 }] 1 = none := by
  have h7 := soft_delete_frame [demoPaint] [demoUser] 7 1 99
    [] [] demoPaint [] [] demoUser (fun _ => true) 0 10
  have h1 := soft_delete_frame [demoPaint] [demoUser] 1 1 99
    [] [] demoPaint [] [] demoUser (fun _ => true) 0 10
  have hp := h1.2.2.1 (by decide) (by decide) (by intro x hx; cases hx)
  have hu := h1.2.2.2 (by decide) (by decide) (by intro x hx; cases hx)
  refine ⟨h7.1 (by decide), ?_, ?_, ?_, ?_⟩
  · simpa using hp.1
  · simpa using (hp.2 (by decide)).1
  · simpa using hu.1
  · simpa using hu.2 (by decide)

/-- Dict assignment keeps the key list duplicate-free. -/
theorem cacheInsert_keys_nodup (cache : Cache) (k : String) (c : Ctx)
    (h : (cache.map (·.1)).Nodup) : ((cacheInsert cache k c).map (·.1)).Nodup := by
  unfold cacheInsert
  split
  · have hkeys : (cache.map (fun kv => if kv.1 = k then (k, c) else kv)).map (·.1)
        = cache.map (·.1) := by
      rw [List.map_map]
      refine List.map_congr_left (fun kv _ => ?_)
      by_cases hkk : kv.1 = k
      · simp [hkk]
      · simp [hkk]
    rw [hkeys]
    exact h
  · rename_i hnone
    rw [List.map_append, List.nodup_append]
    refine ⟨h, by simp, ?_⟩
    intro a ha hb
    simp only [List.map_cons, List.map_nil, List.mem_singleton] at hb
    rw [hb] at ha
    obtain ⟨kv, hkv, hkva⟩ := List.mem_map.mp ha
    have hfind : cache.find? (fun kv => kv.1 = k) = none := by
      rcases hx : cache.find? (fun kv => kv.1 = k) with _ | v
      · exact hx
      · exact absurd (by rw [hx]; rfl) hnone
    have := List.find?_eq_none.mp hfind kv hkv
    simp only [decide_eq_true_eq] at this
    exact this hkva

/-- Dict assignment on a present key does not change the size. -/
theorem cacheInsert_length_of_found (cache : Cache) (k : String) (c : Ctx)
    (h : (cache.find? (fun kv => kv.1 = k)).isSome = true) :
    (cacheInsert cache k c).length = cache.length := by
  unfold cacheInsert
  rw [if_pos h, List.length_map]

/-- Dict deletion keeps the key list duplicate-free. -/
theorem cacheErase_keys_nodup (cache : Cache) (k : String)
    (h : (cache.map (·.1)).Nodup) : ((cacheErase cache k).map (·.1)).Nodup :=
  (List.Sublist.map (·.1) (List.filter_sublist cache)).nodup h

/-- Above the bound, `_cleanup_contexts_if_needed` trims the cache to
exactly `max_context_size` entries, removes only existing entries, and
every removed entry is at most as recently accessed as every survivor. -/
theorem cleanup_contexts_exact (cache : Cache)
    (hk : (cache.map (·.1)).Nodup) (hgt : max_context_size < cache.length) :
    (cleanup_contexts_if_needed cache).length = max_context_size
  ∧ (∀ kv ∈ cleanup_contexts_if_needed cache, kv ∈ cache)
  ∧ (∀ kv ∈ cache, kv ∉ cleanup_contexts_if_needed cache →
      ∀ kv' ∈ cleanup_contexts_if_needed cache,
        kv.2.last_accessed ≤ kv'.2.last_accessed) := by
  have hnle : ¬ cache.length ≤ max_context_size := not_le.mpr hgt
  unfold cleanup_contexts_if_needed
  rw [if_neg hnle]
  dsimp only
  set S := cache.mergeSort (fun a b => decide (a.2.last_accessed ≤ b.2.last_accessed))
    with hS
  set k := cache.length - max_context_size with hk2
  set R := (S.take k).map (·.1) with hR
  have hperm : S.Perm cache := by
    rw [hS]
    exact List.mergeSort_perm cache _
  have hcacheNodup : cache.Nodup := List.Nodup.of_map _ hk
  have hSNodup : S.Nodup := (hperm.symm).nodup hcacheNodup
  have hinj := List.inj_on_of_nodup_map hk
  have hsplit : S.take k ++ S.drop k = S := List.take_append_drop k S
  have hdisj : (S.take k).Disjoint (S.drop k) := by
    apply List.disjoint_of_nodup_append
    rw [hsplit]
    exact hSNodup
  have hmemtake : ∀ kv ∈ cache, (List.contains R kv.1 = true ↔ kv ∈ S.take k) := by
    intro kv hkv
    constructor
    · intro hc
      have hm : kv.1 ∈ R := List.elem_iff.mp hc
      rw [hR] at hm
      obtain ⟨kv1, hkv1, heq⟩ := List.mem_map.mp hm
      have hkv1c : kv1 ∈ cache := (hperm.mem_iff).mp (List.mem_of_mem_take hkv1)
      have : kv1 = kv := hinj hkv1c hkv heq
      rw [← this]
      exact hkv1
    · intro ht
      refine List.elem_iff.mpr ?_
      rw [hR]
      exact List.mem_map.mpr ⟨kv, ht, rfl⟩
  have hfiltertake : (S.take k).filter (fun kv => !List.contains R kv.1) = [] := by
    rw [List.filter_eq_nil_iff]
    intro kv hkv
    have hkvc : kv ∈ cache := (hperm.mem_iff).mp (List.mem_of_mem_take hkv)
    have hcont := (hmemtake kv hkvc).mpr hkv
    rw [hcont]
    simp
  have hfilterdrop : (S.drop k).filter (fun kv => !List.contains R kv.1) = S.drop k := by
    rw [List.filter_eq_self]
    intro kv hkv
    have hkvc : kv ∈ cache := (hperm.mem_iff).mp (List.mem_of_mem_drop hkv)
    by_cases hc : List.contains R kv.1 = true
    · exact absurd hkv (hdisj ((hmemtake kv hkvc).mp hc))
    · cases hcc : List.contains R kv.1 with
      | false => rfl
      | true => exact absurd hcc hc
  have hfa : S.filter (fun kv => !List.contains R kv.1)
      = (S.take k).filter (fun kv => !List.contains R kv.1)
        ++ (S.drop k).filter (fun kv => !List.contains R kv.1) := by
    conv_lhs => rw [← hsplit]
    rw [List.filter_append]
  have hresultperm : (cache.filter (fun kv => !List.contains R kv.1)).Perm (S.drop k) := by
    have hp := (hperm.symm).filter (fun kv => !List.contains R kv.1)
    rw [hfa, hfiltertake, hfilterdrop, List.nil_append] at hp
    exact hp
  have hlenS : S.length = cache.length := hperm.length_eq
  refine ⟨?_, ?_, ?_⟩
  · rw [hresultperm.length_eq, List.length_drop, hlenS]
    omega
  · intro kv hkv
    exact (List.mem_filter.mp hkv).1
  · intro kv hkv hnot kv' hkv'
    have hcont : List.contains R kv.1 = true := by
      by_contra hc
      refine hnot (List.mem_filter.mpr ⟨hkv, ?_⟩)
      cases hcc : List.contains R kv.1 with
      | false => rfl
      | true => exact absurd hcc hc
    have hkvtake := (hmemtake kv hkv).mp hcont
    have hkv'drop : kv' ∈ S.drop k := (hresultperm.mem_iff).mp hkv'
    have hpair : List.Pairwise
        (fun a b : String × Ctx =>
          (decide (a.2.last_accessed ≤ b.2.last_accessed)) = true) S := by
      rw [hS]
      refine List.sorted_mergeSort ?_ ?_ cache
      · intro a b c hab hbc
        exact decide_eq_true (le_trans (of_decide_eq_true hab) (of_decide_eq_true hbc))
      · intro a b
        simp only [Bool.or_eq_true, decide_eq_true_eq]
        exact le_total a.2.last_accessed b.2.last_accessed
    rw [← hsplit] at hpair
    exact of_decide_eq_true ((List.pairwise_append.mp hpair).2.2 kv hkvtake kv' hkv'drop)

/-- The cleanup never leaves the cache above the bound. -/
theorem cleanup_contexts_le (cache : Cache) (hk : (cache.map (·.1)).Nodup) :
    (cleanup_contexts_if_needed cache).length ≤ max_context_size := by
  by_cases h : cache.length ≤ max_context_size
  · unfold cleanup_contexts_if_needed
    rw [if_pos h]
    exact h
  · rw [(cleanup_contexts_exact cache hk (not_le.mp h)).1]

/-- Every path of `get_or_create_context` keeps a within-bound cache
within bound. -/
theorem get_or_create_context_le (cache : Cache) (sid cid : Option String)
    (now : Nat) (fresh : FreshIds) (hk : (cache.map (·.1)).Nodup)
    (hsize : cache.length ≤ max_context_size) :
    (get_or_create_context cache sid cid now fresh).2.length ≤ max_context_size := by
  unfold get_or_create_context
  split
  · exact hsize
  · split
    · exact hsize
    · dsimp only
      split
      · rename_i c hfind
        split
        · dsimp only
          rw [cacheInsert_length_of_found]
          · exact hsize
          · unfold cacheFind at hfind
            rcases Option.map_eq_some'.mp hfind with ⟨kv, hkv, _⟩
            rw [hkv]
            rfl
        · dsimp only
          exact cleanup_contexts_le _
            (cacheInsert_keys_nodup _ _ _ (cacheErase_keys_nodup _ _ hk))
      · dsimp only
        exact cleanup_contexts_le _ (cacheInsert_keys_nodup _ _ _ hk)

/-- C5: starting within the bound, every `get_or_create_context` call
leaves the cache with at most `max_context_size` (50) entries, and whenever
the bound is exceeded the cleanup keeps exactly `max_context_size` of the
cached entries, all of them previously present, removing only entries whose
last-accessed timestamp is at most that of every survivor. -/
theorem context_cache_bounded_evicts_oldest (cache : Cache)
    (sid cid : Option String) (now : Nat) (fresh : FreshIds)
    (hk : (cache.map (·.1)).Nodup) (hsize : cache.length ≤ max_context_size) :
    (get_or_create_context cache sid cid now fresh).2.length ≤ max_context_size
  ∧ ∀ c2 : Cache, (c2.map (·.1)).Nodup → max_context_size < c2.length →
      (cleanup_contexts_if_needed c2).length = max_context_size
    ∧ (∀ kv ∈ cleanup_contexts_if_needed c2, kv ∈ c2)
    ∧ (∀ kv ∈ c2, kv ∉ cleanup_contexts_if_needed c2 →
        ∀ kv' ∈ cleanup_contexts_if_needed c2,
          kv.2.last_accessed ≤ kv'.2.last_accessed) :=
  ⟨get_or_create_context_le cache sid cid now fresh hk hsize,
    fun c2 h1 h2 => cleanup_contexts_exact c2 h1 h2⟩

/-- Closed witness: the bound holds after a call on a one-entry cache. -/
theorem context_cache_bounded_evicts_oldest_witness :
    ((([("session_a", create_new_context (some "a") none "session_a" 0)] : Cache).map
        (·.1)).Nodup)
  ∧ (get_or_create_context
        [("session_a", create_new_context (some "a") none "session_a" 0)]
        (some "b") none 10 ⟨"k", "s", "c"⟩).2.length ≤ max_context_size := by
  refine ⟨by decide, ?_⟩
  exact (context_cache_bounded_evicts_oldest
    [("session_a", create_new_context (some "a") none "session_a" 0)]
    (some "b") none 10 ⟨"k", "s", "c"⟩ (by decide) (by decide)).1

end Tintas
